import Mathlib

/-!
# Verification of the React tutorial repository

Shallow embedding of the stateful logic of an interactive React tutorial:
the tutorial-navigation shell (`TutorialContainer`), the counter reducer of
the Effects example, the simulated user fetch, the Form Handling example's
validation and submission, and the list-manipulation helpers of the List
Rendering and Conditional Rendering examples.

JavaScript numbers are modelled as `Int` (all arithmetic in the source stays
far from any overflow or fractional behaviour), strings as `String`,
`null`/`undefined` as `Option`, and thrown exceptions as `Except`.
-/

namespace Tutorial

/-! ## Effects example: `counterReducer` (useReducer demo)

Source (`EffectsExample`):
```js
const counterReducer = (state, action) => {
  switch (action.type) {
    case "increment": return { count: state.count + 1 };
    case "decrement": return { count: state.count - 1 };
    case "reset":     return { count: 0 };
    default:          return state;
  }
};
```
A JS `switch` on strings is a chain of equality tests, embedded as an
if-chain.  The action's `type` field is named `ty` (`type` is reserved in
Lean). -/

structure CounterState where
  count : Int
deriving DecidableEq, Repr

structure CounterAction where
  ty : String
deriving DecidableEq, Repr

def counterReducer (state : CounterState) (action : CounterAction) : CounterState :=
  if action.ty = "increment" then { count := state.count + 1 }
  else if action.ty = "decrement" then { count := state.count - 1 }
  else if action.ty = "reset" then { count := 0 }
  else state

/-! ## Effects example: increment click handlers

The `useState` card's increment button runs `setCount((prev) => prev + 1)`;
the State example's button runs `setCount(count + 1)`.  Both are functions
from the current count to the next count. -/

def effectsUseStateIncrement (prev : Int) : Int := prev + 1

def stateExampleIncrement (count : Int) : Int := count + 1

/-! ## Tutorial shell: `TutorialContainer`

The shell holds the `examples` array (ten entries) and a single piece of
state, `currentExampleIndex`, initialised to `0`.  `goToNext` and
`goToPrevious` move by one inside the bounds; each jump button at position
`index` of the array runs `setCurrentExampleIndex(index)` directly. -/

inductive ExampleComponent where
  | BasicComponent
  | PropsExample
  | StateExample
  | EventHandlingExample
  | EffectsExample
  | ConditionalRenderingExample
  | ListRenderingExample
  | FormHandlingExample
  | ContextExample
  | ReactNativeComparison
deriving DecidableEq, Repr

structure Example where
  id : Int
  name : String
  component : ExampleComponent
deriving DecidableEq, Repr

def examples : List Example :=
  [ { id := 1, name := "1. Basic Components", component := .BasicComponent },
    { id := 2, name := "2. Props", component := .PropsExample },
    { id := 3, name := "3. State", component := .StateExample },
    { id := 4, name := "4. Event Handling", component := .EventHandlingExample },
    { id := 5, name := "5. Effects (Lifecycle)", component := .EffectsExample },
    { id := 6, name := "6. Conditional Rendering",
      component := .ConditionalRenderingExample },
    { id := 7, name := "7. List Rendering", component := .ListRenderingExample },
    { id := 8, name := "8. Form Handling", component := .FormHandlingExample },
    { id := 9, name := "9. Context API", component := .ContextExample },
    { id := 10, name := "10. React Native Comparison",
      component := .ReactNativeComparison } ]

/-- Initial value `useState(0)` for `currentExampleIndex`. -/
def initialExampleIndex : Int := 0

/-- Source: `if (currentExampleIndex < examples.length - 1) setCurrentExampleIndex(currentExampleIndex + 1)` -/
def goToNext (currentExampleIndex : Int) : Int :=
  if currentExampleIndex < (examples.length : Int) - 1 then currentExampleIndex + 1
  else currentExampleIndex

/-- Source: `if (currentExampleIndex > 0) setCurrentExampleIndex(currentExampleIndex - 1)` -/
def goToPrevious (currentExampleIndex : Int) : Int :=
  if currentExampleIndex > 0 then currentExampleIndex - 1
  else currentExampleIndex

/-- The indices the jump buttons can set: `examples.map((example, index) => ...)`
renders one button per position `index` of the array. -/
def jumpTargets : List Int := (List.range examples.length).map (fun i => (i : Int))

/-- The values `currentExampleIndex` can reach from its initial value under the
three navigation operations of the shell. -/
inductive ReachableIndex : Int → Prop where
  | init : ReachableIndex initialExampleIndex
  | next {i : Int} : ReachableIndex i → ReachableIndex (goToNext i)
  | prev {i : Int} : ReachableIndex i → ReachableIndex (goToPrevious i)
  | jump {j : Int} : j ∈ jumpTargets → ReachableIndex j

/-! ## Effects example: simulated user fetch

Source (both versions of `EffectsExample` carry the same effect):
```js
const fetchUser = async () => {
  setIsLoading(true); setError(null);
  try {
    await delay(1000);
    if (userId === 3) throw new Error("User not found");
    const user = mockUsers.find(u => u.id === userId);
    if (user) setUserData(user); else throw new Error("User not found");
  } catch (err) { setError(err.message); setUserData(null); }
  finally { setIsLoading(false); }
};
```
The thrown error is the `Except.error` branch. -/

structure UserData where
  id : Int
  name : String
deriving DecidableEq, Repr

def mockUsers : List UserData :=
  [ { id := 1, name := "John Doe" },
    { id := 2, name := "Jane Smith" },
    { id := 4, name := "Bob Johnson" },
    { id := 5, name := "Alice Williams" } ]

def fetchUser (userId : Int) : Except String UserData :=
  if userId = 3 then .error "User not found"
  else
    match mockUsers.find? (fun u => u.id = userId) with
    | some user => .ok user
    | none => .error "User not found"

/-- The `userData` and `error` state after the fetch effect settles: on success
`setUserData(user)` (with `error` still the `null` set at the start), on a
thrown error `setError(err.message); setUserData(null)`. -/
structure FetchOutcome where
  userData : Option UserData
  error : Option String
deriving DecidableEq, Repr

def fetchOutcome (userId : Int) : FetchOutcome :=
  match fetchUser userId with
  | .ok user => { userData := some user, error := none }
  | .error msg => { userData := none, error := some msg }

/-- The user ids offered by the selector buttons: `[1, 2, 3, 4, 5].map(...)`. -/
def selectableUserIds : List Int := [1, 2, 3, 4, 5]

/-! ## Form Handling example: validation and submission

Source (`FormHandlingExample`): the `FormData` interface, the `FormErrors`
interface whose fields are optional strings, `validateForm`, and
`handleSubmit`. -/

inductive Role where
  | developer
  | designer
  | manager
  | tester
deriving DecidableEq, Repr

structure FormData where
  firstName : String
  lastName : String
  email : String
  password : String
  role : Role
  notifications : Bool
  comments : String
deriving DecidableEq, Repr

/-- A `FormErrors` field that is absent (never assigned, or assigned
`undefined`) is `none`. -/
structure FormErrors where
  firstName : Option String
  lastName : Option String
  email : Option String
  password : Option String
deriving DecidableEq, Repr

/-- Initial `useState<FormData>({...})` value. -/
def initialFormData : FormData :=
  { firstName := "", lastName := "", email := "", password := ""
    role := .developer, notifications := true, comments := "" }

/-- Initial `useState<FormErrors>({})` value. -/
def initialFormErrors : FormErrors :=
  { firstName := none, lastName := none, email := none, password := none }

/-- JavaScript's `String.prototype.trim`: remove leading and trailing
whitespace.  (Defined by structural recursion over the character list so that
it evaluates inside the kernel; `String.trim` from core is extensionally the
same but is defined by byte-position recursion.) -/
def jsTrim (s : String) : String :=
  ⟨((s.data.dropWhile Char.isWhitespace).reverse.dropWhile Char.isWhitespace).reverse⟩

/-- The anchored pattern `/^[^\s@]+@[^\s@]+\.[^\s@]+$/` as a predicate on the
character list: some decomposition `a ++ '@' ++ b ++ '.' ++ c` with `a`, `b`,
`c` non-empty and free of whitespace and `@` (`b` and `c` may contain further
dots, since `[^\s@]` admits `.`). -/
def EmailPattern (cs : List Char) : Prop :=
  ∃ a b c : List Char,
    cs = a ++ '@' :: (b ++ '.' :: c) ∧
    a ≠ [] ∧ b ≠ [] ∧ c ≠ [] ∧
    (∀ ch ∈ a, ¬ ch.isWhitespace ∧ ch ≠ '@') ∧
    (∀ ch ∈ b, ¬ ch.isWhitespace ∧ ch ≠ '@') ∧
    (∀ ch ∈ c, ¬ ch.isWhitespace ∧ ch ≠ '@')

/-- Test for a `.` at an interior position of the character list (at least
one character before it and one after it). -/
def hasInteriorDot (l : List Char) : Bool :=
  (List.range l.length).any (fun i =>
    l.getD i ' ' == '.' && decide (1 ≤ i) && decide (i + 1 < l.length))

/-- Executable test for `EmailPattern` (the theorem `emailMatches_iff` below
proves them equivalent): no whitespace anywhere, exactly one `@`, a non-empty
part before it, and a `.` at an interior position of the part after it. -/
def emailMatches (s : String) : Bool :=
  s.data.all (fun ch => !ch.isWhitespace) &&
  s.data.count '@' == 1 &&
  !(s.data.takeWhile (fun ch => ch ≠ '@')).isEmpty &&
  hasInteriorDot ((s.data.dropWhile (fun ch => ch ≠ '@')).drop 1)

/-- The function `validateForm` computes the fresh `newErrors` object from the form data
(the source then stores it with `setErrors(newErrors)` and returns whether it
is empty). -/
def validateForm (formData : FormData) : FormErrors :=
  { firstName := if jsTrim formData.firstName = "" then some "First name is required" else none
    lastName := if jsTrim formData.lastName = "" then some "Last name is required" else none
    email := if jsTrim formData.email = "" || !emailMatches formData.email
             then some "Valid email is required" else none
    password := if formData.password.length < 6
                then some "Password must be at least 6 characters" else none }

/-- Emptiness test `Object.keys(newErrors).length === 0`: a field assigned `undefined` never
counts as a key, so the object is empty exactly when every field is `none`. -/
def FormErrors.isEmpty (e : FormErrors) : Bool :=
  e.firstName == none && e.lastName == none && e.email == none && e.password == none

/-- The component state touched by submission. -/
structure FormState where
  formData : FormData
  errors : FormErrors
  isSubmitted : Bool
deriving DecidableEq, Repr

/-- The handler `handleSubmit` runs `validateForm` (which stores the fresh `newErrors`
with `setErrors`) and sets `isSubmitted` to `true` only when validation
passed; the form data is never touched. -/
def handleSubmit (s : FormState) : FormState :=
  if (validateForm s.formData).isEmpty then
    { s with errors := validateForm s.formData, isSubmitted := true }
  else
    { s with errors := validateForm s.formData }

/-- A form-data value with a non-empty but malformed email and a non-empty but
short password. -/
def beyondEmptinessFormData : FormData :=
  { firstName := "Grace", lastName := "Hopper", email := "grace", password := "abc"
    role := .developer, notifications := true, comments := "" }

/-! ## List Rendering example

Source (`ListRenderingExample`): the `User` interface, the sample `users`
array, `toggleUserStatus`, `deleteUser` and the `filteredUsers` computation. -/

structure User where
  id : Int
  name : String
  email : String
  role : String
  active : Bool
deriving DecidableEq, Repr

def initialUsers : List User :=
  [ { id := 1, name := "Alice Johnson", email := "alice@example.com",
      role := "Developer", active := true },
    { id := 2, name := "Bob Smith", email := "bob@example.com",
      role := "Designer", active := true },
    { id := 3, name := "Carol Williams", email := "carol@example.com",
      role := "Manager", active := false },
    { id := 4, name := "Dave Brown", email := "dave@example.com",
      role := "Developer", active := true },
    { id := 5, name := "Eve Davis", email := "eve@example.com",
      role := "Tester", active := false } ]

/-- Source: `users.map(user => user.id === userId ? { ...user, active: !user.active } : user)` -/
def toggleUserStatus (users : List User) (userId : Int) : List User :=
  users.map (fun user =>
    if user.id = userId then { user with active := !user.active } else user)

/-- Source: `users.filter(user => (showInactive || user.active) && (roleFilter === "" || user.role === roleFilter))` -/
def filteredUsers (users : List User) (showInactive : Bool) (roleFilter : String) :
    List User :=
  users.filter (fun user =>
    (showInactive || user.active) && (roleFilter == "" || user.role == roleFilter))

/-! ## Conditional Rendering example

Source (`ConditionalRenderingExample`): the `Product` interface, the sample
`products` array, the demo states and `toggleProductStock`.  Prices are
decimal literals; they are carried as cents (an integer number of hundredths)
so the embedding stays exact. -/

inductive Category where
  | electronics
  | clothing
  | books
  | food
deriving DecidableEq, Repr

structure Product where
  id : Int
  name : String
  priceCents : Int
  inStock : Bool
  category : Category
  ratingTenths : Int
deriving DecidableEq, Repr

def initialProducts : List Product :=
  [ { id := 1, name := "Laptop", priceCents := 99999, inStock := true,
      category := .electronics, ratingTenths := 45 },
    { id := 2, name := "T-shirt", priceCents := 1999, inStock := true,
      category := .clothing, ratingTenths := 38 },
    { id := 3, name := "Headphones", priceCents := 14999, inStock := false,
      category := .electronics, ratingTenths := 42 },
    { id := 4, name := "Novel", priceCents := 999, inStock := true,
      category := .books, ratingTenths := 40 },
    { id := 5, name := "Snacks", priceCents := 599, inStock := true,
      category := .food, ratingTenths := 35 } ]

/-- Source: `products.map(product => product.id === id ? { ...product, inStock: !product.inStock } : product)` -/
def toggleProductStock (products : List Product) (id : Int) : List Product :=
  products.map (fun product =>
    if product.id = id then { product with inStock := !product.inStock } else product)

/-- The local view-state of `ConditionalRenderingExample` and its `useState`
initial values (`products` initial array, `isLoading` false, `error` null,
`selectedProductId` null). -/
structure CondRenderState where
  products : List Product
  isLoading : Bool
  error : Option String
  selectedProductId : Option Int
deriving DecidableEq, Repr

def initialCondRenderState : CondRenderState :=
  { products := initialProducts, isLoading := false, error := none
    selectedProductId := none }

/-! ## Shell with mounted example state

`TutorialContainer` keeps only `currentExampleIndex`; every counter, toggle
and form field lives in `useState` hooks inside the example components.  The
shell renders `examples[currentExampleIndex].component` as the single child
`<CurrentExample />`.  The ten components are ten distinct element types, so
under React's reconciliation rules changing the index unmounts the old
example (discarding its hook state) and mounts the new one with its hooks at
their initial values; re-rendering with the same index keeps the mounted
instance and its state.  `MountedShell` models exactly that: the shell index
plus the local state of the currently mounted example, drawn from a family
`σ` of local-state values with initial values `init`. -/

structure MountedShell (σ : Type) where
  currentExampleIndex : Int
  localState : σ
deriving Repr

/-- A call `setCurrentExampleIndex(j)` followed by the re-render: a different index
swaps the element type, so the example remounts with `init j`; the same index
keeps the mounted state. -/
def setIndexMounted {σ : Type} (init : Int → σ) (s : MountedShell σ) (j : Int) :
    MountedShell σ :=
  if j = s.currentExampleIndex then s
  else { currentExampleIndex := j, localState := init j }

def goToNextMounted {σ : Type} (init : Int → σ) (s : MountedShell σ) :
    MountedShell σ :=
  if s.currentExampleIndex < (examples.length : Int) - 1 then
    setIndexMounted init s (s.currentExampleIndex + 1)
  else s

def goToPreviousMounted {σ : Type} (init : Int → σ) (s : MountedShell σ) :
    MountedShell σ :=
  if s.currentExampleIndex > 0 then
    setIndexMounted init s (s.currentExampleIndex - 1)
  else s

/-- A Conditional Rendering local state after some user interaction (stock of
product 1 toggled, loading shown, a product selected). -/
def interactedCondRenderState : CondRenderState :=
  { products := toggleProductStock initialProducts 1, isLoading := true
    error := none, selectedProductId := some 2 }

/-! ## Helper lemmas -/

/-- Setting the shell index to a different value remounts: the new example
starts from its initial local state. -/
theorem setIndexMounted_ne {σ : Type} (init : Int → σ) (s : MountedShell σ)
    {j : Int} (h : j ≠ s.currentExampleIndex) :
    setIndexMounted init s j = { currentExampleIndex := j, localState := init j } := by
  unfold setIndexMounted
  rw [if_neg h]

/-- Where `takeWhile`/`dropWhile` split a list whose prefix satisfies `p` and
whose next element does not. -/
theorem takeWhile_append_cons (p : Char → Bool) :
    ∀ (a : List Char) (r : List Char) (x : Char), (∀ y ∈ a, p y = true) →
      p x = false →
      (a ++ x :: r).takeWhile p = a ∧ (a ++ x :: r).dropWhile p = x :: r := by
  intro a
  induction a with
  | nil =>
      intro r x _ hx
      constructor
      · simp [List.takeWhile_cons, hx]
      · simp [List.dropWhile_cons, hx]
  | cons y t ih =>
      intro r x ha hx
      have hy : p y = true := ha y (List.mem_cons_self _ _)
      obtain ⟨ih1, ih2⟩ := ih r x (fun z hz => ha z (List.mem_cons_of_mem _ hz)) hx
      constructor
      · simp [List.takeWhile_cons, hy, ih1]
      · simp [List.dropWhile_cons, hy, ih2]

/-- The first element surviving `dropWhile` fails the predicate. -/
theorem dropWhile_head_false (p : Char → Bool) :
    ∀ (l : List Char) (x : Char) (t : List Char), l.dropWhile p = x :: t →
      p x = false := by
  intro l
  induction l with
  | nil => intro x t h; cases h
  | cons y r ih =>
      intro x t h
      rw [List.dropWhile_cons] at h
      by_cases hy : p y = true
      · rw [if_pos hy] at h
        exact ih x t h
      · rw [if_neg hy] at h
        obtain ⟨rfl, rfl⟩ := List.cons.inj h
        exact Bool.not_eq_true _ ▸ hy

/-- Reading a list at the length of a prepended chunk lands on the element
after the chunk. -/
theorem getD_append_length (x d : Char) :
    ∀ (b c : List Char), (b ++ x :: c).getD b.length d = x := by
  intro b
  induction b with
  | nil => intro c; rfl
  | cons y t ih => intro c; simpa using ih c

/-- Characterisation of `hasInteriorDot`: a decomposition around a dot with
non-empty sides exists. -/
theorem hasInteriorDot_iff (l : List Char) :
    hasInteriorDot l = true ↔ ∃ b c : List Char, l = b ++ '.' :: c ∧ b ≠ [] ∧ c ≠ [] := by
  unfold hasInteriorDot
  rw [List.any_eq_true]
  constructor
  · rintro ⟨i, hi, hcond⟩
    rw [List.mem_range] at hi
    simp only [Bool.and_eq_true, beq_iff_eq, decide_eq_true_eq] at hcond
    obtain ⟨⟨hdot, h1⟩, h2⟩ := hcond
    have hidx : l[i] = '.' := by
      rw [← List.getD_eq_getElem l ' ' hi]
      exact hdot
    refine ⟨l.take i, l.drop (i + 1), ?_, ?_, ?_⟩
    · conv_lhs => rw [← List.take_append_drop i l]
      rw [List.drop_eq_getElem_cons hi, hidx]
    · intro hemp
      rcases List.take_eq_nil_iff.mp hemp with h | h
      · omega
      · subst h; simp at hi
    · intro hemp
      have := List.drop_eq_nil_iff.mp hemp
      omega
  · rintro ⟨b, c, rfl, hb, hc⟩
    have hbl : 0 < b.length := List.length_pos.mpr hb
    have hcl : 0 < c.length := List.length_pos.mpr hc
    have hlen : (b ++ '.' :: c).length = b.length + (c.length + 1) := by simp
    refine ⟨b.length, ?_, ?_⟩
    · rw [List.mem_range, hlen]; omega
    · simp only [Bool.and_eq_true, beq_iff_eq, decide_eq_true_eq]
      exact ⟨⟨getD_append_length '.' ' ' b c, by omega⟩, by rw [hlen]; omega⟩

/-- Correctness of the executable email test: `emailMatches` accepts exactly
the strings matched by the anchored pattern `/^[^\s@]+@[^\s@]+\.[^\s@]+$/`. -/
theorem emailMatches_iff (s : String) :
    emailMatches s = true ↔ EmailPattern s.data := by
  constructor
  · intro h
    unfold emailMatches at h
    simp only [Bool.and_eq_true] at h
    obtain ⟨⟨⟨hall, hcount⟩, hbefore⟩, hdot⟩ := h
    rw [List.all_eq_true] at hall
    rw [beq_iff_eq] at hcount
    rw [Bool.not_eq_true'] at hbefore
    have hat : '@' ∈ s.data := by
      by_contra hmem
      rw [List.count_eq_zero.mpr hmem] at hcount
      cases hcount
    have hdw : s.data.dropWhile (fun ch => ch ≠ '@') ≠ [] := by
      intro hnil
      have hsplit := List.takeWhile_append_dropWhile (fun ch => ch ≠ '@') s.data
      rw [hnil, List.append_nil] at hsplit
      have := List.mem_takeWhile_imp (p := fun ch => ch ≠ '@') (hsplit ▸ hat)
      simp at this
    obtain ⟨x, t, hxt⟩ := List.exists_cons_of_ne_nil hdw
    have hx : x = '@' := by
      have := dropWhile_head_false (fun ch => ch ≠ '@') s.data x t hxt
      simpa using this
    subst hx
    have hsd : s.data = s.data.takeWhile (fun ch => ch ≠ '@') ++ '@' :: t := by
      conv_lhs => rw [← List.takeWhile_append_dropWhile (fun ch => ch ≠ '@') s.data]
      rw [hxt]
    have htw0 : (s.data.takeWhile (fun ch => ch ≠ '@')).count '@' = 0 := by
      rw [List.count_eq_zero]
      intro hmem
      have := List.mem_takeWhile_imp hmem
      simp at this
    have htat : '@' ∉ t := by
      rw [← List.count_eq_zero]
      have : s.data.count '@' =
          (s.data.takeWhile (fun ch => ch ≠ '@')).count '@' + (t.count '@' + 1) := by
        conv_lhs => rw [hsd]
        rw [List.count_append, List.count_cons]
        simp
      rw [hcount, htw0] at this
      omega
    have hafter : (s.data.dropWhile (fun ch => ch ≠ '@')).drop 1 = t := by
      rw [hxt]; rfl
    rw [hafter] at hdot
    obtain ⟨b, c, hbc, hb, hc⟩ := (hasInteriorDot_iff t).mp hdot
    refine ⟨s.data.takeWhile (fun ch => ch ≠ '@'), b, c, ?_, ?_, hb, hc, ?_, ?_, ?_⟩
    · rw [← hbc]
      exact hsd
    · intro hnil
      rw [hnil] at hbefore
      cases hbefore
    · intro ch hch
      refine ⟨?_, ?_⟩
      · have := hall ch (by rw [hsd]; exact List.mem_append_left _ hch)
        simpa using this
      · have := List.mem_takeWhile_imp hch
        simpa using this
    · intro ch hch
      have hmt : ch ∈ t := by rw [hbc]; exact List.mem_append_left _ hch
      refine ⟨?_, fun he => htat (he ▸ hmt)⟩
      have := hall ch (by
        rw [hsd]
        exact List.mem_append_right _ (List.mem_cons_of_mem _ hmt))
      simpa using this
    · intro ch hch
      have hmt : ch ∈ t := by
        rw [hbc]
        exact List.mem_append_right _ (List.mem_cons_of_mem _ hch)
      refine ⟨?_, fun he => htat (he ▸ hmt)⟩
      have := hall ch (by
        rw [hsd]
        exact List.mem_append_right _ (List.mem_cons_of_mem _ hmt))
      simpa using this
  · rintro ⟨a, b, c, hcs, ha, hb, hc, hka, hkb, hkc⟩
    unfold emailMatches
    simp only [Bool.and_eq_true]
    obtain ⟨htw, hdw⟩ := takeWhile_append_cons (fun ch => ch ≠ '@') a (b ++ '.' :: c) '@'
      (fun y hy => by simpa using (hka y hy).2) (by simp)
    refine ⟨⟨⟨?_, ?_⟩, ?_⟩, ?_⟩
    · rw [List.all_eq_true]
      intro ch hch
      rw [hcs] at hch
      rcases List.mem_append.mp hch with h | h
      · simpa using (hka ch h).1
      · rcases List.mem_cons.mp h with rfl | h2
        · decide
        · rcases List.mem_append.mp h2 with h3 | h4
          · simpa using (hkb ch h3).1
          · rcases List.mem_cons.mp h4 with rfl | h5
            · decide
            · simpa using (hkc ch h5).1
    · rw [beq_iff_eq, hcs]
      have hca : a.count '@' = 0 :=
        List.count_eq_zero.mpr fun hmem => (hka '@' hmem).2 rfl
      have hcb : b.count '@' = 0 :=
        List.count_eq_zero.mpr fun hmem => (hkb '@' hmem).2 rfl
      have hcc : c.count '@' = 0 :=
        List.count_eq_zero.mpr fun hmem => (hkc '@' hmem).2 rfl
      rw [List.count_append, List.count_cons, List.count_append, List.count_cons]
      simp [hca, hcb, hcc]
    · rw [hcs, htw, Bool.not_eq_true']
      cases a with
      | nil => exact absurd rfl ha
      | cons y t => rfl
    · rw [hcs, hdw]
      exact (hasInteriorDot_iff _).mpr ⟨b, c, rfl, hb, hc⟩

/-- Mapping a function that fixes every element of a list leaves it unchanged. -/
theorem map_eq_self_of_fixes {α : Type} (f : α → α) :
    ∀ l : List α, (∀ a ∈ l, f a = a) → l.map f = l := by
  intro l h
  induction l with
  | nil => rfl
  | cons a t ih =>
      simp only [List.map_cons, List.cons.injEq]
      exact ⟨h a (List.mem_cons_self a t), ih fun x hx => h x (List.mem_cons_of_mem a hx)⟩

/-- Field-by-field characterisation of `validateForm`: an error is recorded on
a field exactly when that field's validation rule fails. -/
theorem validateForm_fields (formData : FormData) :
    ((validateForm formData).firstName ≠ none ↔ jsTrim formData.firstName = "") ∧
    ((validateForm formData).lastName ≠ none ↔ jsTrim formData.lastName = "") ∧
    ((validateForm formData).email ≠ none ↔
      (jsTrim formData.email = "" ∨ emailMatches formData.email = false)) ∧
    ((validateForm formData).password ≠ none ↔ formData.password.length < 6) := by
  refine ⟨?_, ?_, ?_, ?_⟩
  · simp only [validateForm]; split <;> rename_i h
    · exact iff_of_true (by simp) h
    · exact iff_of_false (by simp) h
  · simp only [validateForm]; split <;> rename_i h
    · exact iff_of_true (by simp) h
    · exact iff_of_false (by simp) h
  · simp only [validateForm]; split <;> rename_i h <;>
      simp only [Bool.or_eq_true, decide_eq_true_eq, Bool.not_eq_true'] at h
    · exact iff_of_true (by simp) h
    · exact iff_of_false (by simp) h
  · simp only [validateForm]; split <;> rename_i h
    · exact iff_of_true (by simp) h
    · exact iff_of_false (by simp) h

/-- `validateForm` produces the empty errors object exactly when the four
validation rules all pass. -/
theorem validateForm_isEmpty (formData : FormData) :
    (validateForm formData).isEmpty = true ↔
      (jsTrim formData.firstName ≠ "" ∧ jsTrim formData.lastName ≠ "" ∧
       jsTrim formData.email ≠ "" ∧ emailMatches formData.email = true ∧
       6 ≤ formData.password.length) := by
  obtain ⟨h1, h2, h3, h4⟩ := validateForm_fields formData
  simp only [FormErrors.isEmpty, Bool.and_eq_true, beq_iff_eq, and_assoc]
  constructor
  · rintro ⟨e1, e2, e3, e4⟩
    refine ⟨fun hc => h1.mpr hc e1, fun hc => h2.mpr hc e2,
      fun hc => h3.mpr (Or.inl hc) e3, ?_, ?_⟩
    · cases he : emailMatches formData.email with
      | false => exact absurd e3 (h3.mpr (Or.inr he))
      | true => rfl
    · by_contra hc
      exact h4.mpr (by omega) e4
  · rintro ⟨n1, n2, n3, n4, n5⟩
    refine ⟨?_, ?_, ?_, ?_⟩
    · by_contra hc; exact n1 (h1.mp hc)
    · by_contra hc; exact n2 (h2.mp hc)
    · by_contra hc
      rcases h3.mp hc with h | h
      · exact n3 h
      · rw [n4] at h; cases h
    · by_contra hc
      have := h4.mp hc
      omega

/-! ## Claim theorems -/

/-- C1: the counter reducer in the Effects example has exactly three cases:
for every state `{count: n}`, dispatching `"increment"` returns
`{count: n+1}`, `"decrement"` returns `{count: n-1}`, `"reset"` returns
`{count: 0}`, and any other action type returns the state unchanged. -/
theorem counterReducer_three_cases (n : Int) :
    counterReducer ⟨n⟩ ⟨"increment"⟩ = ⟨n + 1⟩ ∧
    counterReducer ⟨n⟩ ⟨"decrement"⟩ = ⟨n - 1⟩ ∧
    counterReducer ⟨n⟩ ⟨"reset"⟩ = ⟨0⟩ ∧
    ∀ t : String, t ≠ "increment" → t ≠ "decrement" → t ≠ "reset" →
      counterReducer ⟨n⟩ ⟨t⟩ = ⟨n⟩ := by
  refine ⟨rfl, ?_, ?_, ?_⟩
  · simp [counterReducer]
  · simp [counterReducer]
  · intro t h1 h2 h3
    simp [counterReducer, h1, h2, h3]

theorem counterReducer_three_cases_witness :
    counterReducer ⟨5⟩ ⟨"increment"⟩ = ⟨6⟩ ∧ counterReducer ⟨5⟩ ⟨"bogus"⟩ = ⟨5⟩ :=
  ⟨(counterReducer_three_cases 5).1,
   (counterReducer_three_cases 5).2.2.2 "bogus" (by decide) (by decide) (by decide)⟩

/-- C3: the tutorial shell's example list has exactly ten entries, with ids 1
through 10, in the fixed order basic components, props, state, event
handling, effects, conditional rendering, list rendering, form handling,
context, React-Native comparison. -/
theorem examples_ten_concepts :
    examples.length = 10 ∧
    examples.map (fun e => e.id) = [1, 2, 3, 4, 5, 6, 7, 8, 9, 10] ∧
    examples.map (fun e => e.component) =
      [.BasicComponent, .PropsExample, .StateExample, .EventHandlingExample,
       .EffectsExample, .ConditionalRenderingExample, .ListRenderingExample,
       .FormHandlingExample, .ContextExample, .ReactNativeComparison] :=
  ⟨rfl, rfl, rfl⟩

/-- C6: for every current count `n`, the increment click handler of the State
example's counter (`setCount(count + 1)`) and the useState increment button in
the Effects example (`setCount(prev => prev + 1)`) produce the count `n + 1`. -/
theorem increment_click_adds_one (n : Int) :
    stateExampleIncrement n = n + 1 ∧ effectsUseStateIncrement n = n + 1 :=
  ⟨rfl, rfl⟩

/-- C10: a user appears in `filteredUsers` iff it is in the users list and
(showInactive is true or the user is active) and (roleFilter is the empty
string or equals the user's role); `filteredUsers` is a sublist of the users
list, so relative order is preserved. -/
theorem filteredUsers_membership_order (users : List User) (showInactive : Bool)
    (roleFilter : String) :
    (∀ u : User, u ∈ filteredUsers users showInactive roleFilter ↔
      u ∈ users ∧ (showInactive = true ∨ u.active = true) ∧
        (roleFilter = "" ∨ u.role = roleFilter)) ∧
    (filteredUsers users showInactive roleFilter).Sublist users := by
  constructor
  · intro u
    simp [filteredUsers, List.mem_filter, Bool.and_eq_true, Bool.or_eq_true,
      and_assoc]
  · exact List.filter_sublist users

/-- C9: `toggleUserStatus` (and `toggleProductStock`) negates the `active`
(resp. `inStock`) field of every record whose id matches, leaves every other
field and every non-matching record unchanged, preserves length and order
(element `i` of the output is determined by element `i` of the input), and
leaves the list unchanged when no record has the id. -/
theorem toggle_changes_only_matching_flag (users : List User) (userId : Int)
    (products : List Product) (id : Int) :
    (toggleUserStatus users userId).length = users.length ∧
    (∀ i : Nat, (toggleUserStatus users userId)[i]? =
      (users[i]?).map (fun u =>
        if u.id = userId then { u with active := !u.active } else u)) ∧
    ((∀ u ∈ users, u.id ≠ userId) → toggleUserStatus users userId = users) ∧
    (toggleProductStock products id).length = products.length ∧
    (∀ i : Nat, (toggleProductStock products id)[i]? =
      (products[i]?).map (fun p =>
        if p.id = id then { p with inStock := !p.inStock } else p)) ∧
    ((∀ p ∈ products, p.id ≠ id) → toggleProductStock products id = products) := by
  refine ⟨List.length_map _ _, ?_, ?_, List.length_map _ _, ?_, ?_⟩
  · intro i; simp [toggleUserStatus, List.getElem?_map]
  · intro h
    exact map_eq_self_of_fixes _ users fun u hu => if_neg (h u hu)
  · intro i; simp [toggleProductStock, List.getElem?_map]
  · intro h
    exact map_eq_self_of_fixes _ products fun p hp => if_neg (h p hp)

theorem toggle_changes_only_matching_flag_witness :
    toggleUserStatus initialUsers 99 = initialUsers ∧
    toggleProductStock initialProducts 99 = initialProducts :=
  ⟨(toggle_changes_only_matching_flag initialUsers 99 initialProducts 99).2.2.1
      (by decide),
   (toggle_changes_only_matching_flag initialUsers 99 initialProducts 99).2.2.2.2.2
      (by decide)⟩

/-- C2: every index reachable from the initial index 0 by `goToNext`,
`goToPrevious` and the jump buttons lies between 0 and 9; `goToNext` at the
last example (index 9) and `goToPrevious` at the first (index 0) leave the
index unchanged, and otherwise they change it by exactly +1 resp. -1. -/
theorem currentExampleIndex_in_bounds :
    (∀ i : Int, ReachableIndex i → 0 ≤ i ∧ i ≤ 9) ∧
    goToNext 9 = 9 ∧
    (∀ i : Int, 0 ≤ i → i < 9 → goToNext i = i + 1) ∧
    goToPrevious 0 = 0 ∧
    (∀ i : Int, 0 < i → i ≤ 9 → goToPrevious i = i - 1) := by
  have hlen : (examples.length : Int) = 10 := rfl
  refine ⟨?_, ?_, ?_, ?_, ?_⟩
  · intro i h
    induction h with
    | init => exact ⟨le_refl 0, by norm_num [initialExampleIndex]⟩
    | next _ ih => unfold goToNext; rw [hlen]; split <;> omega
    | prev _ ih => unfold goToPrevious; split <;> omega
    | jump hj =>
        rw [show jumpTargets = [0, 1, 2, 3, 4, 5, 6, 7, 8, 9] from rfl] at hj
        fin_cases hj <;> constructor <;> decide
  · unfold goToNext; rw [hlen]; norm_num
  · intro i _ h9
    unfold goToNext; rw [hlen, if_pos (by omega)]
  · unfold goToPrevious; norm_num
  · intro i h0 _
    unfold goToPrevious
    rw [if_pos (by omega)]

theorem currentExampleIndex_in_bounds_witness :
    (0 ≤ goToNext initialExampleIndex ∧ goToNext initialExampleIndex ≤ 9) ∧
    goToNext 3 = 4 ∧ goToPrevious 3 = 2 :=
  ⟨currentExampleIndex_in_bounds.1 _ (ReachableIndex.next ReachableIndex.init),
   currentExampleIndex_in_bounds.2.2.1 3 (by decide) (by decide),
   currentExampleIndex_in_bounds.2.2.2.2 3 (by decide) (by decide)⟩

/-- C4 counterexample: validation is not only "is the string non-empty" — on
a form whose email and password are both non-empty, `validateForm` still
reports errors on those fields (malformed email, password shorter than 6). -/
theorem validateForm_beyond_emptiness_cex :
    beyondEmptinessFormData.email ≠ "" ∧
    (validateForm beyondEmptinessFormData).email = some "Valid email is required" ∧
    beyondEmptinessFormData.password ≠ "" ∧
    (validateForm beyondEmptinessFormData).password =
      some "Password must be at least 6 characters" := by
  decide

/-- C4 (amended): `validateForm` reports an error on firstName iff its trim is
empty, on lastName iff its trim is empty, on email iff its trim is empty or it
fails the pattern `/^[^\s@]+@[^\s@]+\.[^\s@]+$/`, and on password iff its
length is less than 6. -/
theorem validateForm_error_iff (formData : FormData) :
    ((validateForm formData).firstName ≠ none ↔ jsTrim formData.firstName = "") ∧
    ((validateForm formData).lastName ≠ none ↔ jsTrim formData.lastName = "") ∧
    ((validateForm formData).email ≠ none ↔
      (jsTrim formData.email = "" ∨ emailMatches formData.email = false)) ∧
    ((validateForm formData).password ≠ none ↔ formData.password.length < 6) :=
  validateForm_fields formData

/-- C5: starting from an unsubmitted form, `handleSubmit` sets `isSubmitted`
to true exactly when firstName.trim and lastName.trim and email.trim are
non-empty, the email matches the pattern, and the password has length at
least 6; the form data is unchanged, and on a failing submission the errors
object records exactly the failing fields. -/
theorem handleSubmit_success_iff_valid (s : FormState) (hs : s.isSubmitted = false) :
    ((handleSubmit s).isSubmitted = true ↔
      (jsTrim s.formData.firstName ≠ "" ∧ jsTrim s.formData.lastName ≠ "" ∧
       jsTrim s.formData.email ≠ "" ∧ emailMatches s.formData.email = true ∧
       6 ≤ s.formData.password.length)) ∧
    (handleSubmit s).formData = s.formData ∧
    ((handleSubmit s).isSubmitted = false →
      ((handleSubmit s).errors.firstName ≠ none ↔ jsTrim s.formData.firstName = "") ∧
      ((handleSubmit s).errors.lastName ≠ none ↔ jsTrim s.formData.lastName = "") ∧
      ((handleSubmit s).errors.email ≠ none ↔
        (jsTrim s.formData.email = "" ∨ emailMatches s.formData.email = false)) ∧
      ((handleSubmit s).errors.password ≠ none ↔ s.formData.password.length < 6)) := by
  unfold handleSubmit
  split <;> rename_i h
  · refine ⟨iff_of_true rfl ((validateForm_isEmpty s.formData).mp h), rfl, ?_⟩
    intro hfalse
    simp at hfalse
  · refine ⟨?_, rfl, fun _ => validateForm_fields s.formData⟩
    have hns : ({ s with errors := validateForm s.formData } : FormState).isSubmitted
        = false := hs
    rw [hns]
    simp only [Bool.false_eq_true, false_iff]
    intro hc
    exact h ((validateForm_isEmpty s.formData).mpr hc)

theorem handleSubmit_success_iff_valid_witness :
    (handleSubmit ⟨initialFormData, initialFormErrors, false⟩).formData
      = initialFormData :=
  (handleSubmit_success_iff_valid ⟨initialFormData, initialFormErrors, false⟩ rfl).2.1

/-- C7 counterexample: user id 3 is selectable, yet the simulated fetch takes
the failure branch there and leaves the error state non-null. -/
theorem fetchUser_user3_error_cex :
    (3 : Int) ∈ selectableUserIds ∧
    fetchUser 3 = .error "User not found" ∧
    (fetchOutcome 3).error = some "User not found" :=
  ⟨by decide, rfl, rfl⟩

/-- C7 (amended): for each selectable user id except 3 the simulated fetch
completes with the matching mock user and a null error; for user id 3 it
fails with "User not found" and null user data. -/
theorem fetchUser_selectable_outcomes (userId : Int)
    (h : userId ∈ selectableUserIds) :
    ((fetchOutcome userId).error = none ↔ userId ≠ 3) ∧
    (userId ≠ 3 → ∃ u ∈ mockUsers, u.id = userId ∧
      fetchOutcome userId = { userData := some u, error := none }) ∧
    (userId = 3 →
      fetchOutcome userId = { userData := none, error := some "User not found" }) := by
  fin_cases h <;> decide

theorem fetchUser_selectable_outcomes_witness :
    (fetchOutcome 1).error = none :=
  (fetchUser_selectable_outcomes 1 (by decide)).1.mpr (by decide)

/-- C8: the tutorial shell keeps only the current index, and example local
state is discarded on navigation: for any family of example local states with
their initial values, jumping away from the current example and back — or
stepping next then previous — yields the current example with its local state
reset to its initial value. -/
theorem localState_discarded_on_navigation (σ : Type) (init : Int → σ)
    (s : MountedShell σ) :
    (∀ j : Int, j ≠ s.currentExampleIndex →
      setIndexMounted init (setIndexMounted init s j) s.currentExampleIndex =
        { currentExampleIndex := s.currentExampleIndex
          localState := init s.currentExampleIndex }) ∧
    (0 ≤ s.currentExampleIndex →
      s.currentExampleIndex < (examples.length : Int) - 1 →
      goToPreviousMounted init (goToNextMounted init s) =
        { currentExampleIndex := s.currentExampleIndex
          localState := init s.currentExampleIndex }) := by
  constructor
  · intro j hj
    rw [setIndexMounted_ne init s hj]
    exact setIndexMounted_ne init _ (Ne.symm hj)
  · intro h0 h9
    have h1 : goToNextMounted init s =
        { currentExampleIndex := s.currentExampleIndex + 1
          localState := init (s.currentExampleIndex + 1) } := by
      unfold goToNextMounted
      rw [if_pos h9, setIndexMounted_ne init s (by omega)]
    rw [h1]
    unfold goToPreviousMounted
    dsimp only
    rw [if_pos (show s.currentExampleIndex + 1 > 0 by omega)]
    rw [setIndexMounted_ne init _ (show s.currentExampleIndex + 1 - 1 ≠
      s.currentExampleIndex + 1 by omega)]
    have he : s.currentExampleIndex + 1 - 1 = s.currentExampleIndex := by omega
    rw [he]

theorem localState_discarded_on_navigation_witness :
    setIndexMounted (fun _ => initialCondRenderState)
        (setIndexMounted (fun _ => initialCondRenderState)
          ⟨5, interactedCondRenderState⟩ 6) 5 =
      ⟨5, initialCondRenderState⟩ :=
  (localState_discarded_on_navigation CondRenderState
      (fun _ => initialCondRenderState) ⟨5, interactedCondRenderState⟩).1 6
    (by decide)

end Tutorial
